import Mathlib

/-!
Shallow embedding of the AI Excel formula generator's core logic
(`src/pages/Home.tsx`): the response parser built from two JavaScript
regular expressions plus a quote-stripping `replace`, and the submit
lifecycle of `generateFormula` (loading / error / success state updates
around one external generation call).

Text is modelled as `List Char`.  JavaScript string semantics are made
explicit:

* `isJsWhitespace` is the class matched by `\s` and trimmed by
  `String.prototype.trim()` (ECMAScript WhiteSpace ∪ LineTerminator).
* `formulaMatch` embeds `response.match(/FORMULA:\s*\n*(.*?)(?=\s*\n*EXPLANATION:)/s)`
  (the value of capture group 1, `none` when the match fails).  With the
  `s` flag, `.` matches every character.  The leftmost-match and
  backtracking discipline of the JS engine collapses to: take the first
  occurrence of `FORMULA:`; the match succeeds iff `EXPLANATION:` occurs
  at or after the end of that literal; greedy `\s*` consumes the maximal
  whitespace run (`\n*` then consumes nothing), and the lazy group stops
  at the earliest point from which only whitespace precedes the first
  following `EXPLANATION:`.  Hence group 1 is exactly the text strictly
  between the `FORMULA:` literal and the first later `EXPLANATION:`,
  with leading and trailing JS whitespace stripped.
* `explanationMatch` embeds `response.match(/EXPLANATION:\s*\n*(.*)/s)`:
  group 1 is the whole suffix after the first `EXPLANATION:` with the
  maximal leading whitespace run removed.
* `stripQuotes` embeds `rawFormula.replace(/^["'](.+)["']$/, '$1')`:
  the pattern (no `s` flag, so `.` excludes line terminators) matches
  iff the string starts with a straight quote character, ends with a
  straight quote character, and has a non-empty line-terminator-free
  middle; on a match the replacement keeps only the middle.
-/

/-- ECMAScript whitespace as matched by `\s` and removed by `trim()`:
TAB, LF, VT, FF, CR, SPACE, NBSP, and the Unicode space separators,
plus the line separators U+2028/U+2029 and the BOM U+FEFF. -/
def isJsWhitespace (c : Char) : Bool :=
  c.toNat = 9 || c.toNat = 10 || c.toNat = 11 || c.toNat = 12 || c.toNat = 13 ||
  c.toNat = 32 || c.toNat = 0xa0 || c.toNat = 0x1680 ||
  (0x2000 ≤ c.toNat && c.toNat ≤ 0x200a) ||
  c.toNat = 0x2028 || c.toNat = 0x2029 || c.toNat = 0x202f ||
  c.toNat = 0x205f || c.toNat = 0x3000 || c.toNat = 0xfeff

/-- ECMAScript line terminators, the characters a dot without the `s`
flag does not match: LF, CR, U+2028, U+2029. -/
def isLineTerm (c : Char) : Bool :=
  c.toNat = 10 || c.toNat = 13 || c.toNat = 0x2028 || c.toNat = 0x2029

/-- The character class `["']`: straight double quote or straight single
quote (the only quote characters the source's replace pattern admits). -/
def isQuote (c : Char) : Bool :=
  c.toNat = 34 || c.toNat = 39

/-- `litMatch pat s`: the literal `pat` occurs at the head of `s`. -/
def litMatch : List Char → List Char → Bool
  | [], _ => true
  | _ :: _, [] => false
  | p :: ps, c :: cs => p == c && litMatch ps cs

/-- Index of the leftmost occurrence of the literal `pat` in `s`
(the position a JS regex engine finds for a literal pattern). -/
def findSub (pat : List Char) : List Char → Option Nat
  | [] => if litMatch pat [] then some 0 else none
  | c :: cs => if litMatch pat (c :: cs) then some 0 else (findSub pat cs).map (· + 1)

/-- `occursAt pat s i`: the literal `pat` occurs in `s` at index `i`. -/
def occursAt (pat s : List Char) (i : Nat) : Bool :=
  litMatch pat (s.drop i)

/-- `String.prototype.trim()`: remove the maximal runs of JS whitespace
at both ends. -/
def jsTrim (s : List Char) : List Char :=
  ((s.dropWhile isJsWhitespace).reverse.dropWhile isJsWhitespace).reverse

/-- The literal header `FORMULA:` (8 characters). -/
def formulaTok : List Char := "FORMULA:".toList

/-- The literal header `EXPLANATION:` (12 characters). -/
def explanationTok : List Char := "EXPLANATION:".toList

/-- Capture group 1 of `response.match(/FORMULA:\s*\n*(.*?)(?=\s*\n*EXPLANATION:)/s)`,
`none` when the regex does not match (see the header comment for the
reduction of the engine's backtracking discipline to this form). -/
def formulaMatch (s : List Char) : Option (List Char) :=
  match findSub formulaTok s with
  | none => none
  | some i =>
    match findSub explanationTok (s.drop (i + 8)) with
    | none => none
    | some m => some (jsTrim ((s.drop (i + 8)).take m))

/-- Capture group 1 of `response.match(/EXPLANATION:\s*\n*(.*)/s)`,
`none` when `EXPLANATION:` never occurs. -/
def explanationMatch (s : List Char) : Option (List Char) :=
  match findSub explanationTok s with
  | none => none
  | some i => some ((s.drop (i + 12)).dropWhile isJsWhitespace)

/-- `rawFormula.replace(/^["'](.+)["']$/, '$1')`: if the whole string is
a straight-quote character, then a non-empty middle free of line
terminators, then a straight-quote character, keep only the middle;
otherwise return the string unchanged. -/
def stripQuotes (s : List Char) : List Char :=
  match s with
  | [] => []
  | c :: cs =>
    if isQuote c && isQuote (cs.getLastD c) && decide (2 ≤ cs.length) &&
        cs.dropLast.all (fun ch => !isLineTerm ch) then
      cs.dropLast
    else
      c :: cs

/-- The parsed result the component publishes on success. -/
structure ParsedFormula where
  formula : List Char
  explanation : List Char
deriving DecidableEq

/-- The parsing step of `generateFormula`: both regex matches must
succeed, the formula segment is trimmed then quote-stripped, the
explanation segment is trimmed.  `none` models the thrown
`Error('Failed to parse AI response correctly')`. -/
def parse (raw : List Char) : Option ParsedFormula :=
  match formulaMatch raw, explanationMatch raw with
  | some f, some e => some ⟨stripQuotes (jsTrim f), jsTrim e⟩
  | _, _ => none

/-- Message thrown when `genAI` is not configured (line 23 of the source). -/
def apiKeyMsg : List Char :=
  "API key not configured. Please add your Gemini API key to continue.".toList

/-- Message thrown when the response cannot be parsed (line 50). -/
def parseFailMsg : List Char :=
  "Failed to parse AI response correctly".toList

/-- Generic fallback used when a thrown value is not an `Error` (line 53). -/
def genericErrorMsg : List Char :=
  "An error occurred while generating the Excel formula".toList

/-- The component state relevant to the submit lifecycle. -/
structure HomeState where
  description : List Char
  formula : List Char
  explanation : List Char
  loading : Bool
  error : Option (List Char)
deriving DecidableEq

/-- Outcome of the awaited external generation call: a rejection
carrying the thrown `Error`'s message (`none` for a non-`Error` throw),
or a resolution with the raw response text. -/
inductive CallOutcome where
  | failure (msg : Option (List Char))
  | success (raw : List Char)
deriving DecidableEq

/-- The synchronous part of `generateFormula`, up to the first `await`:
the empty-after-trim guard (line 17), `setLoading(true)`/`setError(null)`
(lines 19–20), and the `genAI` configuration check (lines 22–24), whose
throw is caught synchronously (catch sets the error and clears the
result, finally clears loading).  The `Bool` records whether the
external call was issued. -/
def startPhase (configured : Bool) (st : HomeState) : HomeState × Bool :=
  if jsTrim st.description = [] then (st, false)
  else if configured then
    ({ st with loading := true, error := none }, true)
  else
    ({ st with
        loading := false
        error := some apiKeyMsg
        formula := []
        explanation := [] }, false)

/-- The continuation run when the awaited call settles: on rejection the
catch block publishes the failure's message (or the generic fallback)
and clears the result; on resolution the response is parsed, a parse
failure is caught like any other error, and a parse success publishes
the formula and explanation.  `finally` clears loading in every path. -/
def completePhase (outcome : CallOutcome) (st : HomeState) : HomeState :=
  match outcome with
  | .failure msg =>
    { st with
        loading := false
        error := some (msg.getD genericErrorMsg)
        formula := []
        explanation := [] }
  | .success raw =>
    match parse raw with
    | some pf =>
      { st with
          loading := false
          formula := pf.formula
          explanation := pf.explanation }
    | none =>
      { st with
          loading := false
          error := some parseFailMsg
          formula := []
          explanation := [] }

/-- One whole `generateFormula` invocation: the synchronous phase, then,
if a call was issued, the completion phase on the call's outcome.  The
`Bool` records whether an outbound call was made. -/
def generateFormula (configured : Bool) (outcome : CallOutcome)
    (st : HomeState) : HomeState × Bool :=
  let s := startPhase configured st
  if s.2 then (completePhase outcome s.1, true) else s

/-- An atomic state update of the single-threaded event loop: either the
synchronous phase of a (possibly overlapping) invocation, or the
delivery of one call's completion. -/
inductive Event where
  | start (configured : Bool)
  | complete (outcome : CallOutcome)
deriving DecidableEq

/-- Apply one event to the component state. -/
def step (st : HomeState) (e : Event) : HomeState :=
  match e with
  | .start c => (startPhase c st).1
  | .complete o => completePhase o st

/-- Run an interleaving of submissions and completion deliveries. -/
def runSchedule (st : HomeState) (evs : List Event) : HomeState :=
  evs.foldl step st

/-- The spec's side condition for quote stripping, stated from its
words: the segment is one quote character, then a non-empty middle
(free of line terminators, which the source's dot cannot cross), then a
quote character. -/
def quoteWrapped (s : List Char) : Prop :=
  ∃ a mid b, s = a :: (mid ++ [b]) ∧ isQuote a = true ∧ isQuote b = true ∧
    mid ≠ [] ∧ ∀ c ∈ mid, isLineTerm c = false

/-- A concrete input for the C10 witness: a successful submission
overwriting a previous error. -/
def c10Raw : List Char := "FORMULA: =SUM(A1) EXPLANATION: ok".toList

/-- The pre-state for the C10 witness, holding a previous error. -/
def c10St : HomeState := ⟨"sum".toList, [], [], false, some ("old error".toList)⟩

/-! ### Basic facts about literal matching and substring search -/

theorem litMatch_append (p : List Char) :
    ∀ (xs ys : List Char), litMatch p xs = true → litMatch p (xs ++ ys) = true := by
  induction p with
  | nil => intro xs ys _; rfl
  | cons a ps ih =>
    intro xs ys h
    cases xs with
    | nil => simp [litMatch] at h
    | cons x xs' =>
      simp only [List.cons_append, litMatch, Bool.and_eq_true] at h ⊢
      exact ⟨h.1, ih xs' ys h.2⟩

theorem litMatch_length (p : List Char) :
    ∀ xs, litMatch p xs = true → p.length ≤ xs.length := by
  induction p with
  | nil => intro xs _; simp
  | cons a ps ih =>
    intro xs h
    cases xs with
    | nil => simp [litMatch] at h
    | cons x xs' =>
      simp only [litMatch, Bool.and_eq_true] at h
      simpa [Nat.succ_le_succ_iff] using ih xs' h.2

theorem litMatch_of_take (p l : List Char) (k : Nat)
    (h : litMatch p (l.take k) = true) : litMatch p l = true := by
  have h2 := litMatch_append p (l.take k) (l.drop k) h
  rwa [List.take_append_drop] at h2

theorem litMatch_nil_of_ne (p : List Char) (hp : p ≠ []) : litMatch p [] = false := by
  cases p with
  | nil => exact absurd rfl hp
  | cons a ps => rfl

theorem findSub_occurs (p : List Char) :
    ∀ (s : List Char) (m : Nat), findSub p s = some m → occursAt p s m = true := by
  intro s
  induction s with
  | nil =>
    intro m h
    unfold findSub at h
    cases hl : litMatch p [] with
    | false => rw [hl] at h; simp at h
    | true =>
      rw [hl] at h
      simp at h
      subst h
      simpa [occursAt] using hl
  | cons c cs ih =>
    intro m h
    unfold findSub at h
    cases hl : litMatch p (c :: cs) with
    | true =>
      rw [hl] at h
      simp at h
      subst h
      simpa [occursAt] using hl
    | false =>
      rw [hl] at h
      simp only [Bool.false_eq_true, if_false] at h
      cases hf : findSub p cs with
      | none => rw [hf] at h; simp at h
      | some m' =>
        rw [hf] at h
        simp at h
        subst h
        have := ih m' hf
        simpa [occursAt] using this

theorem findSub_min (p : List Char) :
    ∀ (s : List Char) (m k : Nat), findSub p s = some m → k < m → occursAt p s k = false := by
  intro s
  induction s with
  | nil =>
    intro m k h hk
    unfold findSub at h
    cases hl : litMatch p [] with
    | false => rw [hl] at h; simp at h
    | true => rw [hl] at h; simp at h; omega
  | cons c cs ih =>
    intro m k h hk
    unfold findSub at h
    cases hl : litMatch p (c :: cs) with
    | true => rw [hl] at h; simp at h; omega
    | false =>
      rw [hl] at h
      simp only [Bool.false_eq_true, if_false] at h
      cases hf : findSub p cs with
      | none => rw [hf] at h; simp at h
      | some m' =>
        rw [hf] at h
        simp at h
        subst h
        cases k with
        | zero => simpa [occursAt] using hl
        | succ k' =>
          have := ih m' k' hf (by omega)
          simpa [occursAt] using this

theorem occurs_findSub (p : List Char) :
    ∀ (s : List Char) (k : Nat), occursAt p s k = true →
      ∃ m, findSub p s = some m ∧ m ≤ k := by
  intro s
  induction s with
  | nil =>
    intro k h
    have : litMatch p [] = true := by simpa [occursAt] using h
    exact ⟨0, by simp [findSub, this], Nat.zero_le k⟩
  | cons c cs ih =>
    intro k h
    cases hl : litMatch p (c :: cs) with
    | true => exact ⟨0, by simp [findSub, hl], Nat.zero_le k⟩
    | false =>
      cases k with
      | zero =>
        exfalso
        have : litMatch p (c :: cs) = true := by simpa [occursAt] using h
        rw [hl] at this
        exact Bool.noConfusion this
      | succ k' =>
        have h' : occursAt p cs k' = true := by simpa [occursAt] using h
        obtain ⟨m, hm, hle⟩ := ih k' h'
        refine ⟨m + 1, ?_, by omega⟩
        simp [findSub, hl, hm]

theorem findSub_none_occurs (p s : List Char) (h : findSub p s = none) (k : Nat) :
    occursAt p s k = false := by
  cases ho : occursAt p s k with
  | false => rfl
  | true =>
    obtain ⟨m, hm, _⟩ := occurs_findSub p s k ho
    rw [hm] at h
    exact Option.noConfusion h

theorem occursAt_drop (p s : List Char) (n j : Nat) :
    occursAt p (s.drop n) j = occursAt p s (n + j) := by
  simp [occursAt, List.drop_drop, Nat.add_comm]

theorem occursAt_take (p : List Char) (hp : p ≠ []) (s : List Char) (m j : Nat)
    (h : occursAt p (s.take m) j = true) : occursAt p s j = true ∧ j < m := by
  unfold occursAt at h
  rw [List.drop_take] at h
  constructor
  · exact litMatch_of_take p (s.drop j) (m - j) h
  · by_contra hj
    have hmj : m - j = 0 := by omega
    rw [hmj, List.take_zero] at h
    rw [litMatch_nil_of_ne p hp] at h
    exact Bool.noConfusion h

theorem occursAt_within (p u f v : List Char) (hp : p ≠ []) (j : Nat)
    (h : occursAt p f j = true) : occursAt p (u ++ (f ++ v)) (u.length + j) = true := by
  have hlen : p.length ≤ (f.drop j).length := litMatch_length p (f.drop j) h
  have hple : 1 ≤ p.length := by
    cases p with
    | nil => exact absurd rfl hp
    | cons a ps => simp
  have hjf : j ≤ f.length := by
    have := f.length_drop j
    omega
  unfold occursAt
  rw [List.drop_append, List.drop_append_of_le_length hjf]
  exact litMatch_append p (f.drop j) v h

theorem jsTrim_decomp (s : List Char) :
    s.takeWhile isJsWhitespace ++ (jsTrim s ++
      ((s.dropWhile isJsWhitespace).reverse.takeWhile isJsWhitespace).reverse) = s := by
  have h1 : s.takeWhile isJsWhitespace ++ s.dropWhile isJsWhitespace = s :=
    List.takeWhile_append_dropWhile isJsWhitespace s
  have h2 := List.takeWhile_append_dropWhile isJsWhitespace
    (s.dropWhile isJsWhitespace).reverse
  have h3 := congrArg List.reverse h2
  rw [List.reverse_append, List.reverse_reverse] at h3
  calc s.takeWhile isJsWhitespace ++ (jsTrim s ++
        ((s.dropWhile isJsWhitespace).reverse.takeWhile isJsWhitespace).reverse)
      = s.takeWhile isJsWhitespace ++ s.dropWhile isJsWhitespace := by rw [jsTrim, h3]
    _ = s := h1

/-! ### Claims about the submit lifecycle -/

/-- C4 (amended): on every valid (non-empty after trimming) submission,
`generateFormula` first transitions the state to Loading and clears any
previous error before the external call is made; the previous formula
and explanation are NOT cleared at that point — they are retained
untouched until the call's outcome is published. -/
theorem C4_start_loading (st : HomeState) (h : jsTrim st.description ≠ []) :
    startPhase true st = ({ st with loading := true, error := none }, true) ∧
      (startPhase true st).1.formula = st.formula ∧
      (startPhase true st).1.explanation = st.explanation := by
  simp [startPhase, h]

/-- C4 witness: a concrete valid submission from the idle state. -/
theorem C4_start_loading_witness :
    startPhase true ⟨"sum A1:A10".toList, [], [], false, none⟩ =
      ({ (⟨"sum A1:A10".toList, [], [], false, none⟩ : HomeState) with
          loading := true
          error := none }, true) ∧
      (startPhase true ⟨"sum A1:A10".toList, [], [], false, none⟩).1.formula =
        (⟨"sum A1:A10".toList, [], [], false, none⟩ : HomeState).formula ∧
      (startPhase true ⟨"sum A1:A10".toList, [], [], false, none⟩).1.explanation =
        (⟨"sum A1:A10".toList, [], [], false, none⟩ : HomeState).explanation :=
  C4_start_loading _ (by decide)

/-- C4 counterexample: a submission issued from a state holding a prior
result.  At the very moment the external call is issued (second
component `true`), the previous formula and explanation are still
present, contradicting the claim that they are cleared before the call. -/
theorem C4_counterexample :
    (startPhase true
      ⟨"sum of A1:A10".toList, "=OLD()".toList, "old explanation".toList, false, none⟩).2
        = true ∧
    (startPhase true
      ⟨"sum of A1:A10".toList, "=OLD()".toList, "old explanation".toList, false, none⟩).1.formula
        = "=OLD()".toList ∧
    (startPhase true
      ⟨"sum of A1:A10".toList, "=OLD()".toList, "old explanation".toList, false, none⟩).1.explanation
        = "old explanation".toList := by
  decide

/-- C5: for every input whose trimmed form is empty, `generateFormula`
is a no-op: the state is unchanged and no outbound call is issued. -/
theorem C5_empty_noop (conf : Bool) (o : CallOutcome) (st : HomeState)
    (h : jsTrim st.description = []) :
    generateFormula conf o st = (st, false) := by
  simp [generateFormula, startPhase, h]

/-- C5 witness: the whitespace-only description `"   "`. -/
theorem C5_empty_noop_witness :
    generateFormula true (.success [])
      ⟨"   ".toList, "=A1".toList, "old".toList, false, some ("e".toList)⟩ =
      (⟨"   ".toList, "=A1".toList, "old".toList, false, some ("e".toList)⟩, false) :=
  C5_empty_noop true (.success []) _ (by decide)

/-- C6: when the generation client is not configured, a valid submission
fails immediately with the credential message of line 23 of the source,
the result fields are cleared, loading ends false, and no outbound call
is attempted (second component `false`). -/
theorem C6_unconfigured (o : CallOutcome) (st : HomeState)
    (h : jsTrim st.description ≠ []) :
    generateFormula false o st =
      ({ st with
          loading := false
          error := some apiKeyMsg
          formula := []
          explanation := [] }, false) := by
  simp [generateFormula, startPhase, h]

/-- C6 witness: a concrete valid submission with the client missing. -/
theorem C6_unconfigured_witness :
    generateFormula false (.success []) ⟨"sum A1".toList, [], [], false, none⟩ =
      (⟨"sum A1".toList, [], [], false, some apiKeyMsg⟩, false) :=
  C6_unconfigured (.success []) _ (by decide)

/-- C7: when the configured outbound call fails, the submission ends in
the Error state carrying the underlying failure's message (or the
generic fallback when the thrown value carries none), with loading
cleared and the formula and explanation cleared — even when the prior
state held a stale success. -/
theorem C7_failure_path (msg : Option (List Char)) (st : HomeState)
    (h : jsTrim st.description ≠ []) :
    generateFormula true (.failure msg) st =
      ({ st with
          loading := false
          error := some (msg.getD genericErrorMsg)
          formula := []
          explanation := [] }, true) := by
  simp [generateFormula, startPhase, completePhase, h]

/-- C7 witness: a failing call with a message, issued from a state still
holding a previous success; the stale formula/explanation are cleared. -/
theorem C7_failure_path_witness :
    generateFormula true (.failure (some ("quota exceeded".toList)))
      ⟨"avg B".toList, "=OLD()".toList, "old expl".toList, false, none⟩ =
      (⟨"avg B".toList, [], [], false, some ("quota exceeded".toList)⟩, true) :=
  C7_failure_path (some ("quota exceeded".toList)) _ (by decide)

/-- C10: after any completed submission (any configuration and outcome),
error and result are mutually exclusive: a non-null error forces empty
formula and explanation, and a non-empty formula forces a null error. -/
theorem C10_error_result_exclusive (conf : Bool) (o : CallOutcome) (st : HomeState)
    (h : jsTrim st.description ≠ []) :
    ((generateFormula conf o st).1.error ≠ none →
      (generateFormula conf o st).1.formula = [] ∧
        (generateFormula conf o st).1.explanation = []) ∧
    ((generateFormula conf o st).1.formula ≠ [] →
      (generateFormula conf o st).1.error = none) := by
  cases conf with
  | false => simp [generateFormula, startPhase, h]
  | true =>
    cases o with
    | failure msg => simp [generateFormula, startPhase, completePhase, h]
    | success raw =>
      cases hp : parse raw with
      | none => simp [generateFormula, startPhase, completePhase, h, hp]
      | some pf => simp [generateFormula, startPhase, completePhase, h, hp]

/-- C10 witness: a successful submission overwriting a previous error. -/
theorem C10_error_result_exclusive_witness :
    ((generateFormula true (.success c10Raw) c10St).1.error ≠ none →
      (generateFormula true (.success c10Raw) c10St).1.formula = [] ∧
        (generateFormula true (.success c10Raw) c10St).1.explanation = []) ∧
    ((generateFormula true (.success c10Raw) c10St).1.formula ≠ [] →
      (generateFormula true (.success c10Raw) c10St).1.error = none) :=
  C10_error_result_exclusive true (.success c10Raw) c10St (by decide)

/-! ### Claims about quote stripping and parsed fields -/

theorem dropLast_append_getLastD (cs : List Char) :
    ∀ d : Char, cs ≠ [] → cs.dropLast ++ [cs.getLastD d] = cs := by
  induction cs with
  | nil => intro d h; exact absurd rfl h
  | cons x xs ih =>
    intro d _
    cases xs with
    | nil => rfl
    | cons y ys =>
      have h1 := ih x (by simp)
      calc (x :: y :: ys).dropLast ++ [(x :: y :: ys).getLastD d]
          = x :: ((y :: ys).dropLast ++ [(y :: ys).getLastD x]) := by
            simp [List.dropLast, List.getLastD]
        _ = x :: (y :: ys) := by rw [h1]

theorem stripQuotes_eq_nil (s : List Char) : stripQuotes s = [] ↔ s = [] := by
  constructor
  · intro h
    cases s with
    | nil => rfl
    | cons c cs =>
      by_cases hc : (isQuote c && isQuote (cs.getLastD c) && decide (2 ≤ cs.length) &&
          cs.dropLast.all (fun ch => !isLineTerm ch)) = true
      · exfalso
        rw [stripQuotes, if_pos hc] at h
        simp only [Bool.and_eq_true, decide_eq_true_eq] at hc
        have hlen : 2 ≤ cs.length := hc.1.2
        have hdl : cs.dropLast.length = cs.length - 1 := List.length_dropLast cs
        rw [h] at hdl
        simp at hdl
        omega
      · rw [stripQuotes, if_neg hc] at h
        exact List.noConfusion h
  · intro h; subst h; rfl

/-- C1 (amended): the quote-stripping step removes the first and last
characters iff the trimmed formula segment begins with a straight quote
character and ends with a straight quote character — NOT necessarily a
matching pair — around a non-empty middle free of line terminators;
every other string (quotes mid-string only, a single quote character,
curly quotes, too-short strings) is returned untouched.  The claim's
positive examples hold: the segment `"=SUM(A1:A10)"` parses to
`=SUM(A1:A10)` and `=TEXT(A1,"yyyy")` is returned unchanged. -/
theorem C1_quote_strip :
    (∀ s : List Char, (quoteWrapped s → stripQuotes s = s.tail.dropLast) ∧
      (¬ quoteWrapped s → stripQuotes s = s)) ∧
    parse ("FORMULA:\n\"=SUM(A1:A10)\"\n\nEXPLANATION:\n1. adds values\n".toList) =
      some ⟨"=SUM(A1:A10)".toList, "1. adds values".toList⟩ ∧
    parse ("FORMULA:\n=TEXT(A1,\"yyyy\")\n\nEXPLANATION:\nformats date\n".toList) =
      some ⟨"=TEXT(A1,\"yyyy\")".toList, "formats date".toList⟩ := by
  refine ⟨?_, by decide, by decide⟩
  intro s
  constructor
  · rintro ⟨a, mid, b, rfl, ha, hb, hmid, hall⟩
    have hlast : (mid ++ [b]).getLastD a = b := List.getLastD_concat a b mid
    have hdrop : (mid ++ [b]).dropLast = mid := List.dropLast_concat
    have hmlen : 1 ≤ mid.length := List.length_pos.mpr hmid
    have hallb : mid.all (fun ch => !isLineTerm ch) = true := by
      rw [List.all_eq_true]
      intro c hc
      simp [hall c hc]
    rw [stripQuotes, if_pos (by simp [ha, hb, hlast, hdrop, hallb, hmlen])]
    simp [hdrop]
  · intro h
    cases s with
    | nil => rfl
    | cons c cs =>
      by_cases hc : (isQuote c && isQuote (cs.getLastD c) && decide (2 ≤ cs.length) &&
          cs.dropLast.all (fun ch => !isLineTerm ch)) = true
      · exfalso
        apply h
        simp only [Bool.and_eq_true, decide_eq_true_eq] at hc
        obtain ⟨⟨⟨hq, hql⟩, hlen⟩, hallc⟩ := hc
        have hcs : cs ≠ [] := by
          intro e; subst e; simp at hlen
        refine ⟨c, cs.dropLast, cs.getLastD c, ?_, hq, hql, ?_, ?_⟩
        · rw [dropLast_append_getLastD cs c hcs]
        · intro e
          have hdl : cs.dropLast.length = cs.length - 1 := List.length_dropLast cs
          rw [e] at hdl
          simp at hdl
          omega
        · intro x hx
          have := List.all_eq_true.mp hallc x hx
          simpa using this
      · rw [stripQuotes, if_neg hc]

/-- C1 witness: instantiating the amended characterisation at the
spec's own example `"=SUM(A1:A10)"`, whose outer pair is removed. -/
theorem C1_quote_strip_witness :
    stripQuotes ("\"=SUM(A1:A10)\"".toList) = ("\"=SUM(A1:A10)\"".toList).tail.dropLast :=
  (C1_quote_strip.1 _).1
    ⟨'"', "=SUM(A1:A10)".toList, '"', by decide, by decide, by decide, by decide, by decide⟩

/-- C1 counterexample: the claim says unbalanced/mismatched quote pairs
are left untouched, but the source's pattern `^["'](.+)["']$` does not
require the two quotes to match: a formula segment opening with a
straight double quote and closing with a straight single quote
(`"=SUM(A1:A10)'`) still has both end characters stripped, yielding
`=SUM(A1:A10)`. -/
theorem C1_counterexample :
    parse ("FORMULA:\n\"=SUM(A1:A10)".toList ++ [Char.ofNat 39] ++
        "\n\nEXPLANATION:\n1. adds values\n".toList) =
      some ⟨"=SUM(A1:A10)".toList, "1. adds values".toList⟩ ∧
    ("\"=SUM(A1:A10)".toList ++ [Char.ofNat 39]).headD ' ' ≠
      ("\"=SUM(A1:A10)".toList ++ [Char.ofNat 39]).getLastD ' ' := by
  constructor
  · decide
  · decide

/-- C3 (amended): when parsing succeeds, each published field equals the
trimmed (and, for the formula, quote-stripped) matched segment, and it
is empty exactly when that trimmed segment is empty — quote-stripping
never turns a non-empty segment into an empty formula.  Both fields are
therefore non-empty whenever their segments are, but parsing does NOT
guarantee non-emptiness in general. -/
theorem C3_fields (raw : List Char) (pf : ParsedFormula) (h : parse raw = some pf) :
    (pf.formula = [] ↔ ∃ f, formulaMatch raw = some f ∧ jsTrim f = []) ∧
    (pf.explanation = [] ↔ ∃ e, explanationMatch raw = some e ∧ jsTrim e = []) := by
  unfold parse at h
  cases hf : formulaMatch raw with
  | none => rw [hf] at h; simp at h
  | some f =>
    cases he : explanationMatch raw with
    | none => rw [hf, he] at h; simp at h
    | some e =>
      rw [hf, he] at h
      simp only [Option.some.injEq] at h
      subst h
      constructor
      · constructor
        · intro hnil
          exact ⟨f, rfl, (stripQuotes_eq_nil (jsTrim f)).mp hnil⟩
        · rintro ⟨f', hf', hnil⟩
          rw [Option.some.injEq] at hf'
          subst hf'
          simpa [stripQuotes_eq_nil] using hnil
      · constructor
        · intro hnil
          exact ⟨e, rfl, hnil⟩
        · rintro ⟨e', he', hnil⟩
          rw [Option.some.injEq] at he'
          subst he'
          simpa using hnil

/-- C3 witness: a response with non-empty segments; both published
fields are then characterised by the non-empty segments. -/
theorem C3_fields_witness :
    ((ParsedFormula.mk ("=SUM(A1)".toList) ("ok".toList)).formula = [] ↔
      ∃ f, formulaMatch ("FORMULA: =SUM(A1) EXPLANATION: ok".toList) = some f ∧
        jsTrim f = []) ∧
    ((ParsedFormula.mk ("=SUM(A1)".toList) ("ok".toList)).explanation = [] ↔
      ∃ e, explanationMatch ("FORMULA: =SUM(A1) EXPLANATION: ok".toList) = some e ∧
        jsTrim e = []) :=
  C3_fields ("FORMULA: =SUM(A1) EXPLANATION: ok".toList) _ (by decide)

/-- C3 counterexample: parsing succeeds on a response whose formula
segment is empty and whose explanation segment is empty, publishing an
empty formula AND an empty explanation — the claimed invariant that
both fields are non-empty on success is false. -/
theorem C3_counterexample :
    parse ("FORMULA:\nEXPLANATION:".toList) = some ⟨[], []⟩ := by
  decide

/-! ### Claims about parse failure and segment truncation -/

theorem parse_none_iff (raw : List Char) :
    parse raw = none ↔ ∀ i m, occursAt formulaTok raw i = true →
      occursAt explanationTok raw m = true → m < i + 8 := by
  constructor
  · intro hp i m hf he
    by_contra hlt
    push_neg at hlt
    obtain ⟨i0, hi0, hle⟩ := occurs_findSub formulaTok raw i hf
    have hocc : occursAt explanationTok (raw.drop (i0 + 8)) (m - (i0 + 8)) = true := by
      rw [occursAt_drop]
      have hm : (i0 + 8) + (m - (i0 + 8)) = m := by omega
      rw [hm]
      exact he
    obtain ⟨m0, hm0, _⟩ := occurs_findSub explanationTok (raw.drop (i0 + 8)) _ hocc
    obtain ⟨e0, he0, _⟩ := occurs_findSub explanationTok raw m he
    simp [parse, formulaMatch, explanationMatch, hi0, hm0, he0] at hp
  · intro hall
    cases hi : findSub formulaTok raw with
    | none =>
      cases he : findSub explanationTok raw <;>
        simp [parse, formulaMatch, explanationMatch, hi, *]
    | some i =>
      cases hm : findSub explanationTok (raw.drop (i + 8)) with
      | none =>
        cases he : findSub explanationTok raw <;>
          simp [parse, formulaMatch, explanationMatch, hi, hm, *]
      | some m =>
        exfalso
        have hf : occursAt formulaTok raw i = true := findSub_occurs formulaTok raw i hi
        have he : occursAt explanationTok (raw.drop (i + 8)) m = true :=
          findSub_occurs explanationTok (raw.drop (i + 8)) m hm
        rw [occursAt_drop] at he
        have := hall i ((i + 8) + m) hf he
        omega

/-- C2 (amended): parsing fails — and only fails — when no occurrence of
`EXPLANATION:` lies at or after the end of an occurrence of `FORMULA:`
(this covers a missing header and an explanation header that only
precedes the formula header); a formula segment that is EMPTY under the
matching regex does NOT make parsing fail.  On failure the submission
ends in the Error state carrying exactly the message
`"Failed to parse AI response correctly"`, with the result fields
cleared, never partially populated; `parse "no headers here"` fails. -/
theorem C2_malformed :
    (∀ raw : List Char, parse raw = none ↔ ∀ i m,
        occursAt formulaTok raw i = true → occursAt explanationTok raw m = true →
          m < i + 8) ∧
    (∀ (raw : List Char) (st : HomeState), parse raw = none →
      jsTrim st.description ≠ [] →
      (generateFormula true (.success raw) st).1 =
        { st with
            loading := false
            error := some parseFailMsg
            formula := []
            explanation := [] }) ∧
    parse ("no headers here".toList) = none := by
  refine ⟨parse_none_iff, ?_, by decide⟩
  intro raw st hp hd
  simp [generateFormula, startPhase, completePhase, hp, hd]

/-- C2 witness: the claim's own example `"no headers here"` drives the
submission to the Error state with the fixed parse-failure message. -/
theorem C2_malformed_witness :
    (generateFormula true (.success ("no headers here".toList))
      ⟨"sum".toList, "=OLD()".toList, "old".toList, false, none⟩).1 =
      ⟨"sum".toList, [], [], false, some parseFailMsg⟩ :=
  C2_malformed.2.1 ("no headers here".toList) _ (by decide) (by decide)

/-- C2 counterexample: the claim says a formula segment that is empty
under the matching regex makes parsing fail with MalformedResponse, but
on `"FORMULA:\nEXPLANATION:\nok"` the lazy group matches the empty
string, both regexes succeed, and parsing SUCCEEDS with an empty
formula field instead of failing. -/
theorem C2_counterexample :
    parse ("FORMULA:\nEXPLANATION:\nok".toList) = some ⟨[], "ok".toList⟩ := by
  decide

/-- C8: the extracted formula never contains the literal `EXPLANATION:`
— the non-greedy boundary match ends at the first occurrence, so an
occurrence embedded in the formula itself (here inside a quoted string
argument of `IF`) truncates the extracted formula there; the parser
does not protect embedded occurrences. -/
theorem C8_truncation :
    (∀ (raw f : List Char) (j : Nat), formulaMatch raw = some f →
        occursAt explanationTok f j = false) ∧
    parse ("FORMULA:\n=IF(A1,\"EXPLANATION:\",\"x\")\n\nEXPLANATION:\n1. checks A1\n".toList) =
      some ⟨"=IF(A1,\"".toList, "\",\"x\")\n\nEXPLANATION:\n1. checks A1".toList⟩ := by
  refine ⟨?_, by decide⟩
  intro raw f j h
  cases hi : findSub formulaTok raw with
  | none => simp [formulaMatch, hi] at h
  | some i =>
    cases hm : findSub explanationTok (raw.drop (i + 8)) with
    | none => simp [formulaMatch, hi, hm] at h
    | some m =>
      simp only [formulaMatch, hi, hm, Option.some.injEq] at h
      subst h
      cases ho : occursAt explanationTok (jsTrim ((raw.drop (i + 8)).take m)) j with
      | false => rfl
      | true =>
        exfalso
        have hd := jsTrim_decomp ((raw.drop (i + 8)).take m)
        have h1 := occursAt_within explanationTok
          (((raw.drop (i + 8)).take m).takeWhile isJsWhitespace)
          (jsTrim ((raw.drop (i + 8)).take m))
          ((((raw.drop (i + 8)).take m).dropWhile isJsWhitespace).reverse.takeWhile
            isJsWhitespace).reverse
          (by decide) j ho
        rw [hd] at h1
        have h2 := occursAt_take explanationTok (by decide) (raw.drop (i + 8)) m _ h1
        have h3 := findSub_min explanationTok (raw.drop (i + 8)) m _ hm h2.2
        rw [h2.1] at h3
        exact Bool.noConfusion h3

/-- C8 witness: the truncated formula extracted from the example indeed
contains no occurrence of the `EXPLANATION:` header at position 0. -/
theorem C8_truncation_witness :
    occursAt explanationTok ("=IF(A1,\"".toList) 0 = false :=
  C8_truncation.1
    ("FORMULA:\n=IF(A1,\"EXPLANATION:\",\"x\")\n\nEXPLANATION:\n1. checks A1\n".toList)
    ("=IF(A1,\"".toList) 0 (by decide)

/-! ### Claims about overlapping submissions -/

/-- C9 (amended): the controller contains no sequencing or
stale-discard mechanism — whichever completion is delivered LAST
determines the published state, regardless of which submission issued
its call: appending a completion to any schedule makes it the published
one, and the formula, explanation and loading fields it publishes
depend only on the completion's outcome, never on the state it
overwrites.  A stale completion from a superseded call therefore DOES
clobber a newer submission's published result. -/
theorem C9_last_completion_wins :
    (∀ (st : HomeState) (evs : List Event) (o : CallOutcome),
        runSchedule st (evs ++ [Event.complete o]) =
          completePhase o (runSchedule st evs)) ∧
    (∀ (o : CallOutcome) (st st' : HomeState),
        (completePhase o st).formula = (completePhase o st').formula ∧
        (completePhase o st).explanation = (completePhase o st').explanation ∧
        (completePhase o st).loading = (completePhase o st').loading) := by
  constructor
  · intro st evs o
    simp [runSchedule, List.foldl_append, step]
  · intro o st st'
    cases o with
    | failure msg => simp [completePhase]
    | success raw =>
      cases hp : parse raw <;> simp [completePhase, hp]

/-- C9 witness: one submission and its completion, delivered last. -/
theorem C9_last_completion_wins_witness :
    runSchedule ⟨"desc".toList, [], [], false, none⟩
        ([Event.start true] ++ [Event.complete (.failure none)]) =
      completePhase (.failure none)
        (runSchedule ⟨"desc".toList, [], [], false, none⟩ [Event.start true]) :=
  C9_last_completion_wins.1 ⟨"desc".toList, [], [], false, none⟩
    [Event.start true] (.failure none)

/-- C9 counterexample: two overlapping submissions (both bypassing the
UI's button disablement).  The first call's response has formula `A`,
the second (most recently issued) call's response has formula `B`.  The
second call completes first; the superseded first call's completion
arrives last and overwrites it, so the published formula is `A`, not
the most recent submission's `B` — refuting the claim that only the
most recently issued request's result is ever published. -/
theorem C9_counterexample :
    parse ("FORMULA:\nA\nEXPLANATION:\nfirst".toList) =
      some ⟨"A".toList, "first".toList⟩ ∧
    parse ("FORMULA:\nB\nEXPLANATION:\nsecond".toList) =
      some ⟨"B".toList, "second".toList⟩ ∧
    (runSchedule ⟨"desc".toList, [], [], false, none⟩
      [Event.start true, Event.start true,
       Event.complete (.success ("FORMULA:\nB\nEXPLANATION:\nsecond".toList)),
       Event.complete (.success ("FORMULA:\nA\nEXPLANATION:\nfirst".toList))]).formula =
      "A".toList := by
  refine ⟨by decide, by decide, by decide⟩
